import Mathlib

/-!
Verification development for the slackbot notification reconciliation engine
(package slackbot, file src/unnamed/part_000). The Go source is shallowly
embedded: pure functions become Lean functions, the mutable reference store
becomes explicit state passing, the chat sink and providers become explicit
functional parameters, and a Go nil-pointer fault is modelled as the `none`
value of an outer `Option`.
-/

namespace Slackbot

/-- Pipeline state enum (lighthouse v1alpha1.PipelineState). The source
switches on pending, running, success, failure and aborted; the remaining
constructors model the other states of the external enum. -/
inductive PipelineState where
  | pending
  | running
  | success
  | failure
  | aborted
  | triggered
  | errored
  | noneState
deriving DecidableEq, Repr

/-- Label on a pull request (gits.Label; the source only reads *v.Name,
always through a non-nil pointer, so the name is stored directly). -/
structure Label where
  Name : String
deriving DecidableEq, Repr

/-- Pull request metadata (gits.GitPullRequest, the fields the source
reads). Merged is a *bool (None models a nil pointer); Closed models the
result of the external IsClosed helper ("closed flag" of the spec);
UpdatedAt, StartTime and CompletionTime carry Unix epoch seconds. -/
structure GitPullRequest where
  Title : String
  URL : String
  Author : String
  Labels : List Label
  Merged : Option Bool
  Closed : Bool
  UpdatedAt : Option Int
deriving DecidableEq, Repr

/-- A step nested in a pipeline stage (record.ActivityStageOrStep, one
level deep: the source only walks stages and their direct steps). -/
structure Step where
  Name : String
  Status : PipelineState
deriving DecidableEq, Repr

/-- A pipeline stage (record.ActivityStageOrStep at the top level). -/
structure Stage where
  Name : String
  Status : PipelineState
  Steps : List Step
deriving DecidableEq, Repr

/-- One pipeline run (record.ActivityRecord, the fields the source
reads). Timestamps are Unix epoch seconds, None models a nil pointer. -/
structure ActivityRecord where
  Name : String
  Owner : String
  Repo : String
  Branch : String
  BuildIdentifier : String
  Context : String
  Status : PipelineState
  StartTime : Option Int
  CompletionTime : Option Int
  GitURL : String
  LinkURL : String
  LogURL : String
  Stages : List Stage
deriving DecidableEq, Repr

/-- Display status (slackapp.Status). -/
structure Status where
  Emoji : String
  Text : String
deriving DecidableEq, Repr

/-- Override status policy (slackapp.Statuses): every field is a *Status,
nil meaning "no override, use the default table". -/
structure Statuses where
  Merged : Option Status := none
  Closed : Option Status := none
  Aborted : Option Status := none
  Errored : Option Status := none
  Failed : Option Status := none
  Approved : Option Status := none
  NotApproved : Option Status := none
  NeedsOkToTest : Option Status := none
  Hold : Option Status := none
  Pending : Option Status := none
  Running : Option Status := none
  Succeeded : Option Status := none
  LGTM : Option Status := none
  Unknown : Option Status := none
deriving DecidableEq, Repr

/-- The semantic kinds of statuses, one per field of Statuses. -/
inductive StatusKind where
  | merged
  | closed
  | aborted
  | errored
  | failed
  | approved
  | notApproved
  | needsOkToTest
  | hold
  | pending
  | running
  | succeeded
  | lgtm
  | unknown
deriving DecidableEq, Repr

/-- The hard-coded default status table (defaultStatuses, source lines
46-103), one entry per kind. -/
def defaultStatusFor : StatusKind → Status
  | .merged => ⟨":purple_heart:", "merged"⟩
  | .closed => ⟨":closed_book:", "closed and not merged"⟩
  | .aborted => ⟨":red_circle:", "build aborted"⟩
  | .errored => ⟨":red_circle:", "build errored"⟩
  | .failed => ⟨":red_circle:", "build failed"⟩
  | .approved => ⟨":+1:", "approved"⟩
  | .notApproved => ⟨":wave:", "not approved"⟩
  | .needsOkToTest => ⟨":wave:", "needs /ok-to-test"⟩
  | .hold => ⟨":octagonal_sign:", "hold"⟩
  | .pending => ⟨":question:", "build pending"⟩
  | .running => ⟨":white_circle:", "build running"⟩
  | .succeeded => ⟨":white_check_mark:", "build succeeded"⟩
  | .lgtm => ⟨":+1:", "lgtm"⟩
  | .unknown => ⟨":grey_question:", ""⟩

/-- Override field of the policy for a given status kind. -/
def Statuses.forKind (o : Statuses) : StatusKind → Option Status
  | .merged => o.Merged
  | .closed => o.Closed
  | .aborted => o.Aborted
  | .errored => o.Errored
  | .failed => o.Failed
  | .approved => o.Approved
  | .notApproved => o.NotApproved
  | .needsOkToTest => o.NeedsOkToTest
  | .hold => o.Hold
  | .pending => o.Pending
  | .running => o.Running
  | .succeeded => o.Succeeded
  | .lgtm => o.LGTM
  | .unknown => o.Unknown

/-- getStatus (source lines 337-342): the override when present, else the
default. -/
def getStatus (overrideStatus : Option Status) (defaultStatus : Status) : Status :=
  match overrideStatus with
  | none => defaultStatus
  | some s => s

/-- Identity of the *Status pointer returned by getStatus: the override
pointer for a kind (allocated by configuration loading) or the address of
the default table entry for a kind. Distinct constructors model distinct
Go pointers; the source compares these pointers with == (line 244). -/
inductive StatusPtr where
  | overridePtr (k : StatusKind)
  | defaultPtr (k : StatusKind)
deriving DecidableEq, Repr

/-- Pointer-level getStatus: which allocation the returned *Status is. -/
def getStatusPtr (overrideStatus : Option Status) (k : StatusKind) : StatusPtr :=
  match overrideStatus with
  | none => .defaultPtr k
  | some _ => .overridePtr k

/-- Numeric value of a list of decimal digit characters. -/
def digitsToNat (ds : List Char) : Nat :=
  ds.foldl (fun a c => 10 * a + (c.toNat - ('0').toNat)) 0

/-- Model of Go strconv.Atoi on a character list: an optional single sign
followed by one or more decimal digits; the second component is true when
no error occurred. On a syntax error Go returns (0, err); on a range
error (the value does not fit a 64-bit int) Go returns the clamped value
together with err, which the source sometimes ignores. -/
def atoiChars (cs : List Char) : Int × Bool :=
  let signed : Bool × List Char :=
    match cs with
    | c :: rest => if c = '+' then (false, rest) else if c = '-' then (true, rest) else (false, cs)
    | [] => (false, cs)
  let neg := signed.1
  let ds := signed.2
  if ds ≠ [] ∧ ds.all Char.isDigit then
    let v : Int := if neg then -(digitsToNat ds : Int) else (digitsToNat ds : Int)
    if v < -(2 ^ 63 : Int) then (-(2 ^ 63 : Int), false)
    else if (2 ^ 63 - 1 : Int) < v then ((2 ^ 63 - 1 : Int), false)
    else (v, true)
  else (0, false)

/-- Go strconv.Atoi on a string. -/
def atoi (s : String) : Int × Bool :=
  atoiChars s.toList

/-- PipelineDetails (kube.PipelineDetails), the object built by
createPipelineDetails. -/
structure PipelineDetails where
  GitOwner : String
  GitRepository : String
  BranchName : String
  Pipeline : String
  Build : String
  Context : String
deriving DecidableEq, Repr

/-- Split of a character list at every occurrence of a separator
character; behaves as Go strings.Split(s, sep) for a one-character
separator (always at least one, possibly empty, piece). -/
def splitOnChar (sep : Char) : List Char → List (List Char)
  | [] => [[]]
  | c :: rest =>
    match splitOnChar sep rest with
    | [] => [[c]]
    | h :: t => if c = sep then [] :: h :: t else (c :: h) :: t

/-- createPipelineDetails (source lines 939-972), translated branch by
branch. The pipeline string is owner/repo/branch; Go strings.Split on "/"
is splitOnChar at the slash. -/
def createPipelineDetails (activity : ActivityRecord) : PipelineDetails :=
  let pipeline := activity.Owner ++ "/" ++ activity.Repo ++ "/" ++ activity.Branch
  let paths := splitOnChar '/' pipeline.toList
  let inner : Bool := decide (pipeline ≠ "" ∧ 2 < paths.length)
  let repoOwner :=
    if inner then (if activity.Owner = "" then String.mk (paths.getD 0 []) else activity.Owner)
    else activity.Owner
  let repoName :=
    if inner then (if activity.Repo = "" then String.mk (paths.getD 1 []) else activity.Repo)
    else activity.Repo
  let branchName0 := if inner then String.mk (paths.getD 2 []) else ""
  let branchName := if branchName0 = "" then "master" else branchName0
  let pipeline1 :=
    if pipeline = "" ∧ repoName ≠ "" ∧ repoOwner ≠ "" then
      repoOwner ++ "/" ++ repoName ++ "/" ++ branchName
    else pipeline
  ⟨repoOwner, repoName, branchName, pipeline1, activity.BuildIdentifier, activity.Context⟩

/-- getPullRequestNumber (source lines 584-591). The branch name is
lowered (Go strings.ToLower; Char.toLower matches it on ASCII input) and
if it starts with "pr-" the remainder goes through Atoi, whose pair
(value, ok) is returned directly; otherwise the result is (0, no error).
The pattern match on the lowered character list is Go
strings.HasPrefix(lower, "pr-") followed by strings.TrimPrefix. -/
def getPullRequestNumber (activity : ActivityRecord) : Int × Bool :=
  let branch := (createPipelineDetails activity).BranchName
  let lower := branch.toList.map Char.toLower
  if lower.take 3 = ['p', 'r', '-'] then atoiChars (lower.drop 3)
  else (0, true)

example : (createPipelineDetails ⟨"a", "o", "r", "PR-42", "7", "", .running,
    none, none, "", "", "", []⟩).BranchName = "PR-42" := by decide

example : getPullRequestNumber ⟨"a", "o", "r", "PR-42", "7", "", .running,
    none, none, "", "", "", []⟩ = (42, true) := by decide

example : getPullRequestNumber ⟨"a", "o", "r", "pr-foo", "7", "", .running,
    none, none, "", "", "", []⟩ = (0, false) := by decide

example : getPullRequestNumber ⟨"a", "o", "r", "master", "7", "", .running,
    none, none, "", "", "", []⟩ = (0, true) := by decide

/-- containsOneOf (source lines 489-498): some label name equals some of
the given strings. -/
def containsOneOf (a : List Label) (x : List String) : Bool :=
  a.any (fun n => x.any (fun y => y = n.Name))

/-- Review status resolution of createReviewersMessage (source lines
383-406) at the level of status kinds: cascading reassignment starting
from not-approved, then lgtm (lgtm-configured repos) or approved, then
hold, then needs-ok-to-test, each later matching check overriding. -/
def reviewStatusKind (lgtmRepo : Bool) (labels : List Label) : StatusKind :=
  let s := StatusKind.notApproved
  let s :=
    if lgtmRepo then (if containsOneOf labels ["lgtm"] then StatusKind.lgtm else s)
    else (if containsOneOf labels ["approved"] then StatusKind.approved else s)
  let s := if containsOneOf labels ["do-not-merge/hold"] then StatusKind.hold else s
  if containsOneOf labels ["needs-ok-to-test"] then StatusKind.needsOkToTest else s

/-- Build status resolution of createReviewersMessage (source lines
408-427) at the level of status kinds: merged flag first, closed flag
second, else the switch on the CI state, defaulting to unknown. -/
def buildStatusKind (pr : GitPullRequest) (st : PipelineState) : StatusKind :=
  if pr.Merged = some true then .merged
  else if pr.Closed then .closed
  else
    match st with
    | .pending => .pending
    | .running => .running
    | .success => .succeeded
    | .failure => .failed
    | .aborted => .aborted
    | _ => .unknown

/-- Pointer identity of the *Status computed for the build status: each
branch of the source cascade calls getStatus with the override and
default entry of the kind that branch selects, so the pointer is
getStatusPtr of the override field for the resolved kind. -/
def buildStatusPtr (o : Statuses) (pr : GitPullRequest) (st : PipelineState) : StatusPtr :=
  getStatusPtr (o.forKind (buildStatusKind pr st)) (buildStatusKind pr st)

/-- Value of the *Status computed for the build status. -/
def buildStatusValue (o : Statuses) (pr : GitPullRequest) (st : PipelineState) : Status :=
  getStatus (o.forKind (buildStatusKind pr st)) (defaultStatusFor (buildStatusKind pr st))

/-- Spec-side table (section 4.1 of the spec): the CI-state mapping
pending to pending, running to running, succeeded to succeeded, failed to
failed, aborted to aborted, anything else to unknown. Stated from the
words of the spec, to be compared with buildStatusKind. -/
def specCiStatusKind : PipelineState → StatusKind
  | .pending => .pending
  | .running => .running
  | .success => .succeeded
  | .failure => .failed
  | .aborted => .aborted
  | _ => .unknown

/-- Spec-side ordered review rule list (spec section 4.1): predicates in
the fixed order not-approved, lgtm/approved, hold, needs-ok-to-test. -/
def specReviewRules (lgtmRepo : Bool) : List ((List Label → Bool) × StatusKind) :=
  [ (fun _ => true, StatusKind.notApproved),
    (if lgtmRepo then (fun ls => containsOneOf ls ["lgtm"], StatusKind.lgtm)
     else (fun ls => containsOneOf ls ["approved"], StatusKind.approved)),
    (fun ls => containsOneOf ls ["do-not-merge/hold"], StatusKind.hold),
    (fun ls => containsOneOf ls ["needs-ok-to-test"], StatusKind.needsOkToTest) ]

/-- Evaluation of an ordered rule list where a later matching rule
overrides an earlier one (spec design note of section 9). -/
def lastMatchingRule (rules : List ((List Label → Bool) × StatusKind)) (ls : List Label) :
    StatusKind :=
  rules.foldl (fun acc r => if r.1 ls then r.2 else acc) StatusKind.unknown

/-- pipelineStatus (source lines 908-920): a succeeded activity keeps its
status; any other status falls through the empty switch cases to the loop
that overwrites the status with each stage status in turn, so the result
is the last stage status when stages exist, else the activity status. -/
def pipelineStatus (activity : ActivityRecord) : PipelineState :=
  match activity.Status with
  | .success => .success
  | st => activity.Stages.foldl (fun _ stage => stage.Status) st

/-- attachmentColor (source lines 885-895). -/
def attachmentColor : PipelineState → String
  | .failure => "danger"
  | .success => "good"
  | .running => "#3AA3E3"
  | .pending => "#3AA3E3"
  | _ => ""

/-- pipelineIcon (source lines 922-932): every branch returns the empty
string. -/
def pipelineIcon : PipelineState → String
  | .failure => ""
  | .success => ""
  | .running => ""
  | .pending => ""
  | _ => ""

/-- statusString (source lines 873-883): emoji of the resolved status for
a step state, empty for unhandled states. -/
def statusString (o : Statuses) : PipelineState → String
  | .failure => (getStatus o.Failed (defaultStatusFor .failed)).Emoji
  | .aborted => (getStatus o.Failed (defaultStatusFor .failed)).Emoji
  | .success => (getStatus o.Succeeded (defaultStatusFor .succeeded)).Emoji
  | .running => (getStatus o.Running (defaultStatusFor .running)).Emoji
  | .pending => (getStatus o.Running (defaultStatusFor .running)).Emoji
  | _ => ""

/-- MessageReference (source lines 105-108): the chat platform's own
coordinates of a previously sent message. -/
structure MessageReference where
  ChannelID : String
  Timestamp : String
deriving DecidableEq, Repr

/-- The process-wide reference store o.Timestamps, as the mapping
(destination channel, activity name) to stored reference. The Go nested
map also materialises an empty inner map per channel before sending; that
changes no binding of the mapping and is invisible here. -/
def Store := String → String → Option MessageReference

/-- Store with one binding replaced (the assignment at source lines
642-645). -/
def updateStore (s : Store) (channel name : String) (r : MessageReference) : Store :=
  fun c n => if c = channel ∧ n = name then some r else s c n

/-- One call to the external chat sink. -/
inductive SinkCall where
  | openConversation (user : String)
  | send (channelId : String) (updateTimestamp : Option String)
deriving DecidableEq, Repr

/-- Behaviour of the external chat sink (slack client): what
OpenConversation and SendMessageContext would return for given
arguments. The optional timestamp passed to send models the presence of
the MsgOptionUpdate option; the result of send is the returned
(channel id, timestamp) pair. -/
structure SlackEnv where
  openConversation : String → Except String String
  sendMessage : String → Option String → Except String (String × String)

/-- Outcome of one postMessage call: the store afterwards, the sink calls
performed in order, and the returned error if any. -/
structure PostResult where
  store : Store
  calls : List SinkCall
  err : Option String

/-- Send/update/skip half of postMessage (source lines 624-647), after
the channel id has been resolved: update when a stored timestamp exists,
else create only when createIfMissing, else skip without error; the store
is written only after a successful send. -/
def postMessageSend (env : SlackEnv) (store : Store) (channel activityName : String)
    (createIfMissing : Bool) (channelId timestamp : String) (calls : List SinkCall) :
    PostResult :=
  if timestamp ≠ "" ∨ createIfMissing = true then
    let upd : Option String := if timestamp = "" then none else some timestamp
    match env.sendMessage channelId upd with
    | .error e =>
      { store := store, calls := calls ++ [.send channelId upd],
        err := some ("(post channelId: " ++ channelId ++ ") " ++ e) }
    | .ok (cid, ts) =>
      { store := updateStore store channel activityName ⟨cid, ts⟩,
        calls := calls ++ [.send channelId upd], err := none }
  else { store := store, calls := calls, err := none }

/-- postMessage (source lines 593-648). The reference store is keyed by
the original destination channel and the activity name; a stored
reference supplies the timestamp and channel id; a direct message first
resolves the destination to a conversation channel id through the sink,
overriding the stored channel id. The messageType, sibling list and
attachment contents do not influence the decision logic and are omitted
from the model. -/
def postMessage (env : SlackEnv) (store : Store) (channel : String) (directMessage : Bool)
    (activityName : String) (createIfMissing : Bool) : PostResult :=
  let messageRef := store channel activityName
  let timestamp := match messageRef with | some r => r.Timestamp | none => ""
  let channelId := match messageRef with | some r => r.ChannelID | none => channel
  if directMessage then
    match env.openConversation channel with
    | .error e =>
      { store := store, calls := [.openConversation channel],
        err := some ("(open converation channelId: " ++ channelId ++ ") " ++ e) }
    | .ok convId =>
      postMessageSend env store channel activityName createIfMissing convId timestamp
        [.openConversation channel]
  else
    postMessageSend env store channel activityName createIfMissing channelId timestamp []

/-- channelName (source lines 825-830). -/
def channelName (channel : String) : String :=
  match channel.toList with
  | '#' :: _ => channel
  | _ => "#" ++ channel

/-- link (source lines 832-841). -/
def link (text url : String) : String :=
  if url ≠ "" then "<" ++ url ++ "|" ++ (if text = "" then url else text) ++ ">"
  else text

/-- Index of the last occurrence of a slash (Go strings.LastIndex with
separator "/"), minus one when absent; character counting matches the
byte counting of Go on ASCII input. -/
def lastIdxAux : List Char → Nat → Int → Int
  | [], _, acc => acc
  | c :: rest, i, acc => lastIdxAux rest (i + 1) (if c = '/' then (i : Int) else acc)

/-- Last index of a slash in a character list, or minus one. -/
def lastIndexOfSlash (cs : List Char) : Int :=
  lastIdxAux cs 0 (-1)

/-- Go strings.TrimSuffix with suffix "/": removes one trailing slash. -/
def trimSuffixSlash (cs : List Char) : List Char :=
  match cs.getLast? with
  | some '/' => cs.dropLast
  | _ => cs

/-- pullRequestName (source lines 770-776). -/
def pullRequestName (url : String) : String :=
  let idx := lastIndexOfSlash url.toList
  if 0 < idx then "#" ++ String.mk (url.toList.drop (idx.toNat + 1))
  else url

/-- repositoryName (source lines 793-802). -/
def repositoryName (act : ActivityRecord) : String :=
  let details := createPipelineDetails act
  let gitURL := act.GitURL
  let ownerChars := trimSuffixSlash gitURL.toList
  let idx := lastIndexOfSlash ownerChars
  let ownerURL := if 0 < idx then String.mk (ownerChars.take (idx.toNat + 1))
    else String.mk ownerChars
  link details.GitOwner ownerURL ++ "/" ++ link details.GitRepository gitURL

/-- buildNumber (source lines 821-823). -/
def buildNumber (activity : ActivityRecord) : String :=
  link ("#" ++ activity.BuildIdentifier) activity.LinkURL

/-- pipelineName (source lines 778-791). -/
def pipelineNameE (activity : ActivityRecord) : Except String String :=
  let name := activity.Owner ++ "/" ++ activity.Repo ++ "/" ++ activity.Branch
  if ("/master".toList.isSuffixOf name.toList) then .ok "Release Pipeline"
  else
    let prnp := getPullRequestNumber activity
    if prnp.2 = false then .error ("getting pull request number from " ++ activity.Name)
    else if 0 < prnp.1 then .ok "Pull Request Pipeline"
    else .ok "Pipeline"

/-- getLastUpdatedTime (source lines 470-487): the latest of the PR
update time and the activity start and completion times, starting from
minus one, each comparison taking the later value. -/
def getLastUpdatedTime (pr : Option GitPullRequest) (activity : Option ActivityRecord) : Int :=
  let t1 : Int :=
    match pr with
    | some p => match p.UpdatedAt with | some u => u | none => -1
    | none => -1
  let t2 : Int :=
    match activity with
    | some a => match a.StartTime with | some s => if t1 < s then s else t1 | none => t1
    | none => t1
  match activity with
  | some a => match a.CompletionTime with | some c => if t2 < c then c else t2 | none => t2
  | none => t2

/-- Slack attachment (slack.Attachment), the fields the source fills. -/
structure AttachmentAction where
  Text : String
  URL : String
deriving DecidableEq, Repr

/-- Slack attachment content produced by the renderer; Ts carries the
epoch-second timestamp when one was set. -/
structure Attachment where
  CallbackID : String := ""
  Color : String := ""
  Title : String := ""
  Text : String := ""
  Fallback : String := ""
  FooterIcon : String := ""
  MarkdownIn : List String := []
  Actions : List AttachmentAction := []
  Ts : Option Int := none
deriving DecidableEq, Repr

/-- Go strings.Title on ASCII input: letters beginning a word (preceded
by a non-letter) are upper-cased. -/
def titleCase (s : String) : String :=
  String.mk (s.toList.foldl
    (fun (acc : List Char × Bool) c =>
      (acc.1 ++ [if acc.2 then c.toUpper else c], !c.isAlpha)) ([], true)).1

/-- Split of a character list at every character satisfying the
predicate. -/
def splitOnPred (p : Char → Bool) : List Char → List (List Char)
  | [] => [[]]
  | c :: rest =>
    match splitOnPred p rest with
    | [] => [[c]]
    | h :: t => if p c then [] :: h :: t else (c :: h) :: t

/-- Go strings.Fields: the maximal runs of non-whitespace characters. -/
def fieldsOf (s : String) : List String :=
  ((splitOnPred Char.isWhitespace s.toList).filter (fun w => w ≠ [])).map String.mk

/-- Go strings.TrimSpace. -/
def trimSpace (s : String) : String :=
  String.mk (((s.toList.dropWhile Char.isWhitespace).reverse.dropWhile
    Char.isWhitespace).reverse)

/-- knownPipelineStageTypes (source line 44). -/
def knownPipelineStageTypes : List String :=
  ["setup", "setVersion", "preBuild", "build", "postBuild", "promote", "pipeline"]

/-- Modelled from the spec: containsIgnoreCase (defined outside src) is
case-insensitive membership, per the spec words "step whose name's first
word is a recognized pipeline-stage keyword (case-insensitive)". -/
def containsIgnoreCase (xs : List String) (w : String) : Bool :=
  xs.any (fun k => k.toList.map Char.toLower = w.toList.map Char.toLower)

/-- isUserPipelineStep (source lines 713-724). -/
def isUserPipelineStep (name : String) : Bool :=
  if trimSpace name = "" then false
  else
    let firstWord := (fieldsOf name).getD 0 ""
    containsIgnoreCase knownPipelineStageTypes firstWord

/-- createStepAttachment (source lines 726-749). The friendly parameter
stands for getUserFriendlyMapping. Modelled from the spec: that alias
mapping is defined outside src ("human-readable (title-cased,
alias-mapped) name") and is kept abstract. -/
def createStepAttachment (o : Statuses) (friendly : String → String) (stepName : String)
    (stepStatus : PipelineState) (name description iconUrl : String) : Attachment :=
  let textName0 := titleCase name
  let textName1 := if textName0 = "" then stepName else textName0
  let textName := friendly textName1
  let textMessage0 := statusString o stepStatus ++ " " ++ textName
  let textMessage := if description ≠ "" then textMessage0 ++ " " ++ description
    else textMessage0
  { Text := textMessage, FooterIcon := iconUrl, MarkdownIn := ["fields"],
    Color := attachmentColor stepStatus }

/-- createStageAttachments (source lines 692-711): one attachment for the
stage, then one per step of a non-meta-pipeline stage whose name is a
user pipeline step. -/
def createStageAttachments (o : Statuses) (friendly : String → String) (stage : Stage) :
    List Attachment :=
  let name := if stage.Name = "" then "Stage" else stage.Name
  createStepAttachment o friendly stage.Name stage.Status name "" "" ::
  (if stage.Name ≠ "meta pipeline" then
    (stage.Steps.filter (fun s => isUserPipelineStep s.Name)).map
      (fun s => createStepAttachment o friendly s.Name s.Status "" "" "")
   else [])

/-- Replacement of every occurrence of "gs://" (Go strings.Replace with
count minus one at source line 539). -/
def replaceGs : List Char → List Char
  | 'g' :: 's' :: ':' :: '/' :: '/' :: rest =>
    ("https://storage.cloud.google.com/").toList ++ replaceGs rest
  | c :: rest => c :: replaceGs rest
  | [] => []

/-- Log URL with the gs scheme rewritten to the storage viewer URL. -/
def gsToViewerURL (url : String) : String :=
  String.mk (replaceGs url.toList)

/-- Title text of the pipeline message (source lines 501-513): icon,
pipeline name, repository link, PR link when the activity is a pull
request, build number. The outer none models the Go nil-pointer fault
that the source would hit dereferencing pr.URL with an absent pull
request on a pr- branch. -/
def pipelineMessageText (activity : ActivityRecord) (pr : Option GitPullRequest) :
    Option (Except String String) :=
  let status := pipelineStatus activity
  let icon := pipelineIcon status
  match pipelineNameE activity with
  | .error e => some (.error e)
  | .ok pname =>
    let base := icon ++ pname ++ " " ++ repositoryName activity
    let prnp := getPullRequestNumber activity
    if prnp.2 = false then some (.error ("getting pull request number from " ++ activity.Name))
    else if 0 < prnp.1 then
      match pr with
      | none => none
      | some p =>
        some (.ok (base ++ link (pullRequestName p.URL) p.URL ++
          " (Build " ++ buildNumber activity ++ ")"))
    else some (.ok (base ++ " (Build " ++ buildNumber activity ++ ")"))

/-- Attachment list and createIfMissing flag of the pipeline message
(source lines 515-569): the main attachment with buttons, color and
timestamp, then the stage attachments; createIfMissing is false when the
last updated time lies more than 24 hours before now. -/
def buildPipelineAttachments (o : Statuses) (friendly : String → String)
    (activity : ActivityRecord) (now : Int) (messageText : String) :
    List Attachment × Bool :=
  let status := pipelineStatus activity
  let actions0 : List AttachmentAction :=
    if activity.GitURL ≠ "" then [⟨"Repository", activity.GitURL⟩] else []
  let fallback0 : List String :=
    if activity.GitURL ≠ "" then ["Repo: " ++ activity.GitURL] else []
  let actions1 :=
    actions0 ++ (if activity.LinkURL ≠ "" then [⟨"Pipeline", activity.LinkURL⟩] else [])
  let fallback1 :=
    fallback0 ++ (if activity.LinkURL ≠ "" then ["Build: " ++ activity.LinkURL] else [])
  let actions :=
    actions1 ++ (if activity.LogURL ≠ "" then
      [⟨"Build Logs", gsToViewerURL activity.LogURL⟩] else [])
  let fallback :=
    fallback1 ++ (if activity.LogURL ≠ "" then ["Logs: " ++ activity.LogURL] else [])
  let lastUpdatedTime := getLastUpdatedTime none (some activity)
  let mainAtt : Attachment :=
    { CallbackID := "pipelineactivity:" ++ activity.Name,
      Color := attachmentColor status,
      Title := messageText,
      Fallback := String.intercalate ", " fallback,
      Actions := actions,
      Ts := if 0 < lastUpdatedTime then some lastUpdatedTime else none }
  let dayAgo := now - 24 * 60 * 60
  let createIfMissing := if lastUpdatedTime < dayAgo then false else true
  (mainAtt :: activity.Stages.flatMap (createStageAttachments o friendly), createIfMissing)

/-- createPipelineMessage (source lines 500-570). -/
def createPipelineMessage (o : Statuses) (friendly : String → String)
    (activity : ActivityRecord) (pr : Option GitPullRequest) (now : Int) :
    Option (Except String (List Attachment × Bool)) :=
  match pipelineMessageText activity pr with
  | none => none
  | some (.error e) => some (.error e)
  | some (.ok messageText) =>
    some (.ok (buildPipelineAttachments o friendly activity now messageText))

example : gsToViewerURL "gs://bucket/log" = "https://storage.cloud.google.com/bucket/log" := by
  decide

/-- Sort key of an activity: its build identifier interpreted as an
integer (the Atoi value, 0 on a syntax error). -/
def buildKey (a : ActivityRecord) : Int :=
  (atoi a.BuildIdentifier).1

/-- Ordering of activities by build number. -/
def buildLE (a b : ActivityRecord) : Prop :=
  buildKey a ≤ buildKey b

instance : DecidableRel buildLE :=
  fun a b => inferInstanceAs (Decidable (buildKey a ≤ buildKey b))

instance : IsTotal ActivityRecord buildLE :=
  ⟨fun a b => Int.le_total (buildKey a) (buildKey b)⟩

instance : IsTrans ActivityRecord buildLE :=
  ⟨fun _ _ _ h1 h2 => Int.le_trans h1 h2⟩

/-- Modelled from the spec: byBuildNumber (defined outside src) sorts
activities ascending by build identifier interpreted as an integer
("Sort ascending by build identifier interpreted as an integer"); Go
sort.Sort gives no tie order guarantee, matching insertionSort. -/
def sortByBuildNumber (l : List ActivityRecord) : List ActivityRecord :=
  l.insertionSort buildLE

/-- findPipelineActivities (source lines 303-335), with the activity
provider abstracted to the sibling list it returns: sort, then oldest is
the first element and latest the last. The source returns the triple
(nil, nil, nil) on an empty list, which coincides with head?, getLast?
and the empty list itself. -/
def findPipelineActivities (siblings : List ActivityRecord) :
    Option ActivityRecord × Option ActivityRecord × List ActivityRecord :=
  let records := sortByBuildNumber siblings
  (records.head?, records.getLast?, records)

/-- Whether the resolved build status pointer is one of the two default
terminal entries: the comparison at source line 244 is Go pointer
equality of *Status values against defaultStatuses.Merged and
defaultStatuses.Closed. -/
def reviewCreateIfMissing (o : Statuses) (pr : GitPullRequest) (st : PipelineState) : Bool :=
  if buildStatusPtr o pr st = .defaultPtr .merged ∨ buildStatusPtr o pr st = .defaultPtr .closed
  then false else true

/-- Outcome of processing one review rule: the store afterwards, the
sink calls performed, the returned error, and whether the build-number
guard passed into the processing branch (the source logs a skip line
otherwise). -/
structure ReviewRuleResult where
  store : Store
  calls : List SinkCall
  err : Option String
  processed : Bool

/-- One iteration of the rule loop of ReviewRequestMessage (source lines
213-277) for an enabled rule, with the activity provider abstracted to
the sibling list and the resolver assumed successful: consolidate the
thread, parse the current build number, skip when it is below the latest
sibling build number (whose own Atoi error the source ignores, value 0),
else build the message and post it to the configured channel keyed by
the oldest activity. The reviewers list built by createReviewersMessage
is always empty in the source (nothing is ever appended to it), so the
direct-message loop sends nothing and is omitted; the attachments are
non-nil because the pull request is present. -/
def processReviewRule (env : SlackEnv) (store : Store) (o : Statuses)
    (cfgChannel : String) (activity : ActivityRecord) (pr : GitPullRequest)
    (siblings : List ActivityRecord) : ReviewRuleResult :=
  let t := findPipelineActivities siblings
  let bnp := atoi (createPipelineDetails activity).Build
  if bnp.2 = false then
    { store := store, calls := [], err := some ("parsing build number of " ++ activity.Name),
      processed := false }
  else
    let latestBuildNumber : Int :=
      match t.2.1 with
      | none => -1
      | some la => (atoi (createPipelineDetails la).Build).1
    let oldestActivity := match t.1 with | none => activity | some a => a
    if latestBuildNumber ≤ bnp.1 then
      let createIfMissing := reviewCreateIfMissing o pr activity.Status
      if cfgChannel ≠ "" then
        let r := postMessage env store (channelName cfgChannel) false oldestActivity.Name
          createIfMissing
        { store := r.store, calls := r.calls,
          err := r.err.map (fun e =>
            "error posting PR review request for " ++ activity.Name ++ " " ++ e),
          processed := true }
      else { store := store, calls := [], err := none, processed := true }
    else { store := store, calls := [], err := none, processed := false }

/-- Org entry of a rule configuration (slackapp.Org). -/
structure Org where
  Name : String
  Repos : List String
deriving DecidableEq, Repr

/-- getPullRequest (source lines 650-677), with the git provider
abstracted to a fetch function: for a pull request activity the PR is
fetched (after requiring a GitURL), else the triple of nils is returned.
The boolean reports whether a resolver was returned. -/
def getPullRequest (fetch : Int → Except String GitPullRequest) (a : ActivityRecord) :
    Except String (Option GitPullRequest × Bool) :=
  let prnp := getPullRequestNumber a
  if 0 < prnp.1 then
    if prnp.2 = false then .error ("getting pull request number " ++ a.Name)
    else if a.GitURL = "" then .error ("no GitURL on PipelineActivity " ++ a.Name)
    else
      match fetch prnp.1 with
      | .error e => .error e
      | .ok pr => .ok (some pr, true)
  else .ok (none, false)

/-- isEnabled (source lines 110-155): organization allow-list, then PR
fetch, then ignore-label check. The outer none models the Go nil-pointer
fault of ranging over pr.Labels when getPullRequest returned a nil pull
request and the ignore-label list is non-empty. -/
def isEnabled (fetch : Int → Except String GitPullRequest) (activity : ActivityRecord)
    (orgs : List Org) (ignoreLabels : List String) :
    Option (Except String (Bool × Option GitPullRequest × Bool)) :=
  let orgFound := orgs.any (fun o =>
    o.Name = activity.Owner ∧ (o.Repos = [] ∨ o.Repos.any (fun r => r = activity.Repo)))
  if orgs ≠ [] ∧ ¬ orgFound then some (.ok (false, none, false))
  else
    match getPullRequest fetch activity with
    | .error e => some (.error e)
    | .ok (pr, resolver) =>
      if ignoreLabels = [] then some (.ok (true, pr, resolver))
      else
        match pr with
        | none => none
        | some p =>
          let found := ignoreLabels.foldl
            (fun acc l => acc ++ (p.Labels.filter (fun v => v.Name = l)).map Label.Name) []
          if found ≠ [] then some (.ok (false, none, false))
          else some (.ok (true, some p, resolver))

section PostMessageLemmas

/-- A stored reference with a non-empty timestamp makes a channel
postMessage issue exactly one update call with the stored coordinates. -/
lemma postMessage_present_update (env : SlackEnv) (store : Store) (ch name : String)
    (cim : Bool) (ref : MessageReference) (h : store ch name = some ref)
    (ht : ref.Timestamp ≠ "") :
    (postMessage env store ch false name cim).calls =
      [.send ref.ChannelID (some ref.Timestamp)] := by
  cases henv : env.sendMessage ref.ChannelID (some ref.Timestamp) <;>
    simp [postMessage, h, postMessageSend, ht, henv]

/-- With no stored reference and createIfMissing, a channel postMessage
issues exactly one create call to the destination channel. -/
lemma postMessage_absent_create (env : SlackEnv) (store : Store) (ch name : String)
    (h : store ch name = none) :
    (postMessage env store ch false name true).calls = [.send ch none] := by
  cases henv : env.sendMessage ch none <;>
    simp [postMessage, h, postMessageSend, henv]

/-- With no stored reference and createIfMissing false, a channel
postMessage performs no sink call, changes nothing and returns no
error. -/
lemma postMessage_absent_skip (env : SlackEnv) (store : Store) (ch name : String)
    (h : store ch name = none) :
    postMessage env store ch false name false =
      { store := store, calls := [], err := none } := by
  simp [postMessage, h, postMessageSend]

end PostMessageLemmas

/-- C1: for every call to postMessage with a destination channel (not a
direct message): a stored reference for (channel, activity name), with
its non-empty remote timestamp, makes the call an in-place update with
the stored timestamp and channel id for any createIfMissing; no stored
reference with createIfMissing true creates a new message; no stored
reference with createIfMissing false performs no sink call and returns
without error, leaving the store unchanged. -/
theorem C1_postMessage_decision_table :
    (∀ (env : SlackEnv) (store : Store) (ch name : String) (cim : Bool)
        (ref : MessageReference), store ch name = some ref → ref.Timestamp ≠ "" →
      (postMessage env store ch false name cim).calls =
        [.send ref.ChannelID (some ref.Timestamp)]) ∧
    (∀ (env : SlackEnv) (store : Store) (ch name : String), store ch name = none →
      (postMessage env store ch false name true).calls = [.send ch none]) ∧
    (∀ (env : SlackEnv) (store : Store) (ch name : String), store ch name = none →
      postMessage env store ch false name false =
        { store := store, calls := [], err := none }) :=
  ⟨postMessage_present_update, postMessage_absent_create, postMessage_absent_skip⟩

/-- Fixture sink that always succeeds, returning the channel it was
given and a fixed timestamp. -/
def envOK : SlackEnv :=
  ⟨fun u => .ok ("D" ++ u), fun cid _ => .ok (cid, "111.22")⟩

/-- Fixture sink whose send always fails. -/
def envFail : SlackEnv :=
  ⟨fun u => .ok ("D" ++ u), fun _ _ => .error "boom"⟩

/-- Empty reference store. -/
def storeEmpty : Store := fun _ _ => none

/-- Reference store holding one reference for channel "#ch" and activity
"act1". -/
def storeOne : Store := fun c n =>
  if c = "#ch" ∧ n = "act1" then some ⟨"C9X", "123.45"⟩ else none

/-- Witness for C1 at a concrete store, sink and destinations. -/
theorem C1_postMessage_decision_table_witness :
    storeOne "#ch" "act1" = some ⟨"C9X", "123.45"⟩ ∧
    ("123.45" : String) ≠ "" ∧
    storeOne "#ch" "other" = none ∧
    (postMessage envOK storeOne "#ch" false "act1" false).calls =
      [.send "C9X" (some "123.45")] ∧
    (postMessage envOK storeOne "#ch" false "other" true).calls = [.send "#ch" none] ∧
    postMessage envOK storeOne "#ch" false "other" false =
      { store := storeOne, calls := [], err := none } :=
  ⟨by decide, by decide, by decide,
   C1_postMessage_decision_table.1 envOK storeOne "#ch" "act1" false ⟨"C9X", "123.45"⟩
     (by decide) (by decide),
   C1_postMessage_decision_table.2.1 envOK storeOne "#ch" "other" (by decide),
   C1_postMessage_decision_table.2.2 envOK storeOne "#ch" "other" (by decide)⟩

/-- C6: a postMessage call that returns an error leaves the reference
store unchanged, and conversely any call that changed the store returned
no error and performed a sink call: a new entry is recorded only after a
successful send. -/
theorem C6_store_unchanged_on_sink_failure :
    ∀ (env : SlackEnv) (store : Store) (ch : String) (direct : Bool) (name : String)
      (cim : Bool),
      ((postMessage env store ch direct name cim).err ≠ none →
        (postMessage env store ch direct name cim).store = store) ∧
      ((postMessage env store ch direct name cim).store ≠ store →
        (postMessage env store ch direct name cim).err = none ∧
        (postMessage env store ch direct name cim).calls ≠ []) := by
  intro env store ch direct name cim
  have hsend : ∀ (cid ts : String) (calls : List SinkCall), calls ≠ [] ∨ direct = false →
      ((postMessageSend env store ch name cim cid ts calls).err ≠ none →
        (postMessageSend env store ch name cim cid ts calls).store = store) ∧
      ((postMessageSend env store ch name cim cid ts calls).store ≠ store →
        (postMessageSend env store ch name cim cid ts calls).err = none ∧
        (postMessageSend env store ch name cim cid ts calls).calls ≠ []) := by
    intro cid ts calls _
    unfold postMessageSend
    split
    · cases henv : env.sendMessage cid (if ts = "" then none else some ts) with
      | error e => simp [henv]
      | ok p => simp [henv]
    · simp
  unfold postMessage
  cases direct with
  | false =>
    simp only [Bool.false_eq_true, if_false]
    exact hsend _ _ [] (Or.inr rfl)
  | true =>
    simp only [if_true]
    cases henv : env.openConversation ch with
    | error e => simp [henv]
    | ok convId =>
      simp only [henv]
      exact hsend _ _ [.openConversation ch] (Or.inl (by simp))

/-- Witness for C6 at a failing sink. -/
theorem C6_store_unchanged_on_sink_failure_witness :
    (postMessage envFail storeEmpty "#ch" false "a" true).err ≠ none ∧
    (postMessage envFail storeEmpty "#ch" false "a" true).store = storeEmpty :=
  ⟨by decide,
   (C6_store_unchanged_on_sink_failure envFail storeEmpty "#ch" false "a" true).1 (by decide)⟩

/-- containsOneOf with a single candidate string is membership of that
name among the labels. -/
lemma containsOneOf_single (ls : List Label) (x : String) :
    containsOneOf ls [x] = true ↔ ∃ l ∈ ls, l.Name = x := by
  simp only [containsOneOf, List.any_eq_true, List.any_cons, List.any_nil, Bool.or_false,
    decide_eq_true_eq]
  constructor <;> rintro ⟨l, hl, he⟩ <;> exact ⟨l, hl, he.symm⟩

/-- C3 (amended): a pull request carrying both the approved and the
do-not-merge/hold labels and not the needs-ok-to-test label resolves to
hold, never approved, in any label order and for lgtm and non-lgtm
repositories; and the resolution equals the evaluation of the ordered
rule list not-approved, lgtm/approved, hold, needs-ok-to-test with a
later matching rule overriding an earlier one. -/
theorem C3_hold_overrides_approved :
    (∀ (lgtmRepo : Bool) (ls : List Label),
      (∃ l ∈ ls, l.Name = "approved") →
      (∃ l ∈ ls, l.Name = "do-not-merge/hold") →
      (¬ ∃ l ∈ ls, l.Name = "needs-ok-to-test") →
      reviewStatusKind lgtmRepo ls = .hold ∧ reviewStatusKind lgtmRepo ls ≠ .approved) ∧
    (∀ (lgtmRepo : Bool) (ls : List Label),
      reviewStatusKind lgtmRepo ls = lastMatchingRule (specReviewRules lgtmRepo) ls) := by
  constructor
  · intro lgtmRepo ls _ hh hn
    have hh' : containsOneOf ls ["do-not-merge/hold"] = true :=
      (containsOneOf_single _ _).mpr hh
    have hn' : containsOneOf ls ["needs-ok-to-test"] = false := by
      rcases hb : containsOneOf ls ["needs-ok-to-test"] with _ | _
      · rfl
      · exact absurd ((containsOneOf_single _ _).mp hb) hn
    constructor
    · simp [reviewStatusKind, hh', hn']
    · simp [reviewStatusKind, hh', hn']
  · intro lgtmRepo ls
    cases lgtmRepo <;>
      cases h1 : containsOneOf ls ["lgtm"] <;>
      cases h2 : containsOneOf ls ["approved"] <;>
      cases h3 : containsOneOf ls ["do-not-merge/hold"] <;>
      cases h4 : containsOneOf ls ["needs-ok-to-test"] <;>
      simp [reviewStatusKind, specReviewRules, lastMatchingRule, h1, h2, h3, h4]

/-- Label list refuting C3 as stated: approved and hold present, but
needs-ok-to-test present as well. -/
def lsC3 : List Label := [⟨"approved"⟩, ⟨"do-not-merge/hold"⟩, ⟨"needs-ok-to-test"⟩]

/-- Counterexample to C3 as stated: a label set containing both approved
and do-not-merge/hold whose resolved review status is not hold (the
needs-ok-to-test rule, evaluated last, overrides hold). -/
theorem C3_counterexample :
    (∃ l ∈ lsC3, l.Name = "approved") ∧ (∃ l ∈ lsC3, l.Name = "do-not-merge/hold") ∧
    reviewStatusKind false lsC3 = .needsOkToTest ∧
    reviewStatusKind false lsC3 ≠ .hold := by
  refine ⟨⟨⟨"approved"⟩, by decide, rfl⟩, ⟨⟨"do-not-merge/hold"⟩, by decide, rfl⟩, by decide,
    by decide⟩

/-- Witness for C3 at a concrete two-label list. -/
theorem C3_hold_overrides_approved_witness :
    (∃ l ∈ [Label.mk "approved", Label.mk "do-not-merge/hold"], l.Name = "approved") ∧
    (∃ l ∈ [Label.mk "approved", Label.mk "do-not-merge/hold"], l.Name = "do-not-merge/hold") ∧
    (¬ ∃ l ∈ [Label.mk "approved", Label.mk "do-not-merge/hold"], l.Name = "needs-ok-to-test") ∧
    (reviewStatusKind false [Label.mk "approved", Label.mk "do-not-merge/hold"] = .hold ∧
     reviewStatusKind false [Label.mk "approved", Label.mk "do-not-merge/hold"] ≠ .approved) :=
  ⟨⟨⟨"approved"⟩, by decide, rfl⟩, ⟨⟨"do-not-merge/hold"⟩, by decide, rfl⟩, by decide,
   C3_hold_overrides_approved.1 false _ ⟨⟨"approved"⟩, by decide, rfl⟩
     ⟨⟨"do-not-merge/hold"⟩, by decide, rfl⟩ (by decide)⟩

/-- C4: build-status resolution returns merged for a merged pull
request, else closed for a closed one, else the CI-state mapping of the
spec table, and for a terminal pull request the result is independent of
the CI state. -/
theorem C4_build_status_resolution :
    ∀ (pr : GitPullRequest) (st : PipelineState),
      (pr.Merged = some true → buildStatusKind pr st = .merged) ∧
      (pr.Merged ≠ some true → pr.Closed = true → buildStatusKind pr st = .closed) ∧
      (pr.Merged ≠ some true → pr.Closed = false →
        buildStatusKind pr st = specCiStatusKind st) ∧
      ((pr.Merged = some true ∨ pr.Closed = true) →
        ∀ st', buildStatusKind pr st = buildStatusKind pr st') := by
  intro pr st
  refine ⟨fun h => by simp [buildStatusKind, h],
    fun h1 h2 => by simp [buildStatusKind, h1, h2],
    fun h1 h2 => by cases st <;> simp [buildStatusKind, specCiStatusKind, h1, h2],
    ?_⟩
  rintro (h | h) st'
  · simp [buildStatusKind, h]
  · by_cases hm : pr.Merged = some true <;> simp [buildStatusKind, hm, h]

/-- Merged pull request fixture. -/
def prMerged : GitPullRequest :=
  ⟨"T", "http://e/o/r/pull/7", "alice", [], some true, false, some 50⟩

/-- Open pull request fixture. -/
def prOpen : GitPullRequest :=
  ⟨"T", "http://e/o/r/pull/7", "alice", [], some false, false, some 50⟩

/-- Witness for C4 at a merged and at an open pull request. -/
theorem C4_build_status_resolution_witness :
    prMerged.Merged = some true ∧ buildStatusKind prMerged .failure = .merged ∧
    prOpen.Merged ≠ some true ∧ prOpen.Closed = false ∧
    buildStatusKind prOpen .failure = specCiStatusKind .failure :=
  ⟨by decide, (C4_build_status_resolution prMerged .failure).1 (by decide), by decide, by decide,
   (C4_build_status_resolution prOpen .failure).2.2.1 (by decide) (by decide)⟩

/-- C5 (amended): terminal suppression holds when the rule's status
policy does not override the merged or closed statuses: a resolved build
status of merged or closed then makes createIfMissing false, the
displayed build status is the default terminal entry, and postMessage
with that flag creates nothing when no reference is stored while still
updating in place when one is stored (the source compares status
pointers against the default table, so suppression requires the default
merged/closed entries). -/
theorem C5_terminal_suppression_default_policy :
    ∀ (o : Statuses) (pr : GitPullRequest) (st : PipelineState),
      o.Merged = none → o.Closed = none →
      (buildStatusKind pr st = .merged ∨ buildStatusKind pr st = .closed) →
      reviewCreateIfMissing o pr st = false ∧
      buildStatusValue o pr st = defaultStatusFor (buildStatusKind pr st) ∧
      (∀ (env : SlackEnv) (store : Store) (ch name : String), store ch name = none →
        postMessage env store ch false name (reviewCreateIfMissing o pr st) =
          { store := store, calls := [], err := none }) ∧
      (∀ (env : SlackEnv) (store : Store) (ch name : String) (ref : MessageReference),
        store ch name = some ref → ref.Timestamp ≠ "" →
        (postMessage env store ch false name (reviewCreateIfMissing o pr st)).calls =
          [.send ref.ChannelID (some ref.Timestamp)]) := by
  intro o pr st hM hC hkind
  have hcim : reviewCreateIfMissing o pr st = false := by
    rcases hkind with hk | hk <;>
      simp [reviewCreateIfMissing, buildStatusPtr, getStatusPtr, Statuses.forKind, hk, hM, hC]
  refine ⟨hcim, ?_, ?_, ?_⟩
  · rcases hkind with hk | hk <;>
      simp [buildStatusValue, getStatus, Statuses.forKind, hk, hM, hC]
  · intro env store ch name h
    rw [hcim]
    exact postMessage_absent_skip env store ch name h
  · intro env store ch name ref h ht
    exact postMessage_present_update env store ch name _ ref h ht

/-- Status policy overriding the merged status, as a rule configuration
may. -/
def statusesOverrideMerged : Statuses := { Merged := some ⟨":tada:", "ship it"⟩ }

/-- Counterexample to C5 as stated: under a policy that overrides the
merged status, a merged pull request resolves to the merged kind yet
createIfMissing stays true — the comparison against the default pointers
fails — and with no stored reference a new message is created rather
than suppressed. -/
theorem C5_counterexample :
    buildStatusKind prMerged .success = .merged ∧
    reviewCreateIfMissing statusesOverrideMerged prMerged .success = true ∧
    (postMessage envOK storeEmpty "#ch" false "act"
      (reviewCreateIfMissing statusesOverrideMerged prMerged .success)).calls =
      [.send "#ch" none] := by
  refine ⟨by decide, by decide, ?_⟩
  have h : reviewCreateIfMissing statusesOverrideMerged prMerged .success = true := by decide
  rw [h]
  exact postMessage_absent_create envOK storeEmpty "#ch" "act" rfl

/-- Witness for C5 at the default (empty) policy and a merged pull
request. -/
theorem C5_terminal_suppression_default_policy_witness :
    ((({} : Statuses).Merged = none) ∧ (({} : Statuses).Closed = none) ∧
      buildStatusKind prMerged .success = .merged) ∧
    reviewCreateIfMissing {} prMerged .success = false ∧
    buildStatusValue {} prMerged .success = ⟨":purple_heart:", "merged"⟩ ∧
    postMessage envOK storeEmpty "#c2" false "a2"
      (reviewCreateIfMissing {} prMerged .success) =
      { store := storeEmpty, calls := [], err := none } ∧
    (postMessage envOK storeOne "#ch" false "act1"
      (reviewCreateIfMissing {} prMerged .success)).calls =
      [.send "C9X" (some "123.45")] := by
  have h := C5_terminal_suppression_default_policy {} prMerged .success rfl rfl
    (Or.inl (by decide))
  exact ⟨⟨rfl, rfl, by decide⟩, h.1, h.2.1,
    h.2.2.1 envOK storeEmpty "#c2" "a2" rfl,
    h.2.2.2 envOK storeOne "#ch" "act1" ⟨"C9X", "123.45"⟩ (by decide) (by decide)⟩

/-- The last element of a list is a member. -/
lemma mem_of_getLast?_eq {α : Type} : ∀ (l : List α) (m : α), l.getLast? = some m → m ∈ l
  | [], m, h => by simp [List.getLast?] at h
  | [a], m, h => by
    simp [List.getLast?] at h
    simp [h]
  | a :: b :: t, m, h => by
    rw [List.getLast?_cons_cons] at h
    exact List.mem_cons_of_mem a (mem_of_getLast?_eq (b :: t) m h)

/-- A non-empty list has a last element. -/
lemma getLast?_isSome_of_ne_nil {α : Type} : ∀ (l : List α), l ≠ [] →
    ∃ m, l.getLast? = some m
  | [], h => absurd rfl h
  | [a], _ => ⟨a, rfl⟩
  | a :: b :: t, _ => by
    rw [List.getLast?_cons_cons]
    exact getLast?_isSome_of_ne_nil (b :: t) (by simp)

/-- In a list sorted by build number, every member's key is at most the
key of the last element. -/
lemma sorted_getLast?_max : ∀ (l : List ActivityRecord), List.Sorted buildLE l →
    ∀ (m : ActivityRecord), l.getLast? = some m →
    ∀ x ∈ l, buildKey x ≤ buildKey m
  | [], _, m, h => by simp [List.getLast?] at h
  | [a], _, m, h => by
    simp [List.getLast?] at h
    intro x hx
    simp at hx
    simp [hx, h]
  | a :: b :: t, hs, m, h => by
    rw [List.getLast?_cons_cons] at h
    have hs' := List.sorted_cons.mp hs
    intro x hx
    rcases List.mem_cons.mp hx with hxa | hxt
    · subst hxa
      exact hs'.1 m (mem_of_getLast?_eq _ _ h)
    · exact sorted_getLast?_max (b :: t) hs'.2 m h x hxt

/-- C2: in the review flow with an enabled rule, an activity whose
parsed build number is strictly below the maximal build number among its
siblings is skipped with no sink call, no store change and no error,
while an activity whose build number is at least the maximum enters the
processing branch. -/
theorem C2_staleness_guard :
    (∀ (env : SlackEnv) (store : Store) (o : Statuses) (ch : String)
        (act : ActivityRecord) (pr : GitPullRequest) (siblings : List ActivityRecord)
        (M : Int),
      siblings ≠ [] →
      (∀ s ∈ siblings, buildKey s ≤ M) →
      (∃ s ∈ siblings, buildKey s = M) →
      (atoi (createPipelineDetails act).Build).2 = true →
      (atoi (createPipelineDetails act).Build).1 < M →
      processReviewRule env store o ch act pr siblings =
        { store := store, calls := [], err := none, processed := false }) ∧
    (∀ (env : SlackEnv) (store : Store) (o : Statuses) (ch : String)
        (act : ActivityRecord) (pr : GitPullRequest) (siblings : List ActivityRecord)
        (M : Int),
      siblings ≠ [] →
      (∀ s ∈ siblings, buildKey s ≤ M) →
      (∃ s ∈ siblings, buildKey s = M) →
      (atoi (createPipelineDetails act).Build).2 = true →
      M ≤ (atoi (createPipelineDetails act).Build).1 →
      (processReviewRule env store o ch act pr siblings).processed = true) := by
  have key : ∀ (siblings : List ActivityRecord) (M : Int),
      siblings ≠ [] →
      (∀ s ∈ siblings, buildKey s ≤ M) →
      (∃ s ∈ siblings, buildKey s = M) →
      ∃ la, (sortByBuildNumber siblings).getLast? = some la ∧ buildKey la = M := by
    intro siblings M hne hub hattain
    have hsne : sortByBuildNumber siblings ≠ [] := by
      intro h
      apply hne
      have := List.length_insertionSort buildLE siblings
      rw [sortByBuildNumber] at h
      rw [h] at this
      exact List.eq_nil_of_length_eq_zero this.symm
    obtain ⟨la, hla⟩ := getLast?_isSome_of_ne_nil _ hsne
    have hsorted : List.Sorted buildLE (sortByBuildNumber siblings) :=
      List.sorted_insertionSort buildLE siblings
    have hmem : la ∈ siblings :=
      (List.mem_insertionSort buildLE).mp (mem_of_getLast?_eq _ _ hla)
    obtain ⟨s0, hs0mem, hs0⟩ := hattain
    have h2 : buildKey s0 ≤ buildKey la :=
      sorted_getLast?_max _ hsorted la hla s0 ((List.mem_insertionSort buildLE).mpr hs0mem)
    exact ⟨la, hla, le_antisymm (hub la hmem) (hs0 ▸ h2)⟩
  constructor
  · intro env store o ch act pr siblings M hne hub hattain hok hlt
    obtain ⟨la, hla, hlaM⟩ := key siblings M hne hub hattain
    have hkey : (atoi (createPipelineDetails la).Build).1 = M := hlaM
    simp only [processReviewRule, findPipelineActivities, hok, Bool.true_eq_false, if_false,
      hla, hkey]
    rw [if_neg (by omega)]
  · intro env store o ch act pr siblings M hne hub hattain hok hge
    obtain ⟨la, hla, hlaM⟩ := key siblings M hne hub hattain
    have hkey : (atoi (createPipelineDetails la).Build).1 = M := hlaM
    simp only [processReviewRule, findPipelineActivities, hok, Bool.true_eq_false, if_false,
      hla, hkey]
    rw [if_pos hge]
    split <;> rfl

/-- Pull-request activity fixture used by the staleness witness. -/
def mkAct (name build : String) : ActivityRecord :=
  ⟨name, "o", "r", "pr-7", build, "", .running, none, none, "http://g/o/r", "", "", []⟩

/-- Sibling fixture with build numbers one, two and three. -/
def sibsW : List ActivityRecord := [mkAct "a1" "1", mkAct "a2" "2", mkAct "a3" "3"]

/-- Witness for C2: re-processing build two against siblings with builds
one to three is a silent no-op, while build three is processed. -/
theorem C2_staleness_guard_witness :
    (sibsW ≠ [] ∧ (∀ s ∈ sibsW, buildKey s ≤ 3) ∧ (∃ s ∈ sibsW, buildKey s = 3) ∧
      (atoi (createPipelineDetails (mkAct "t2" "2")).Build).2 = true ∧
      (atoi (createPipelineDetails (mkAct "t2" "2")).Build).1 < 3) ∧
    processReviewRule envOK storeEmpty {} "#ch" (mkAct "t2" "2") prOpen sibsW =
      { store := storeEmpty, calls := [], err := none, processed := false } ∧
    (processReviewRule envOK storeEmpty {} "#ch" (mkAct "t3" "3") prOpen sibsW).processed =
      true :=
  ⟨⟨by decide, by decide, by decide, by decide, by decide⟩,
   C2_staleness_guard.1 envOK storeEmpty {} "#ch" (mkAct "t2" "2") prOpen sibsW 3
     (by decide) (by decide) (by decide) (by decide) (by decide),
   C2_staleness_guard.2 envOK storeEmpty {} "#ch" (mkAct "t3" "3") prOpen sibsW 3
     (by decide) (by decide) (by decide) (by decide) (by decide)⟩

/-- Atoi on a non-empty all-digit list within the 64-bit range is the
digit value with no error. -/
lemma atoiChars_digits (ds : List Char) (h1 : ds ≠ []) (h2 : ds.all Char.isDigit = true)
    (h3 : (digitsToNat ds : Int) ≤ 2 ^ 63 - 1) :
    atoiChars ds = ((digitsToNat ds : Int), true) := by
  cases ds with
  | nil => exact absurd rfl h1
  | cons c rest =>
    have hc : c.isDigit = true := by
      have h2' := h2
      simp only [List.all_cons, Bool.and_eq_true] at h2'
      exact h2'.1
    have hcp : ¬ c = '+' := by
      rintro rfl
      exact absurd hc (by decide)
    have hcm : ¬ c = '-' := by
      rintro rfl
      exact absurd hc (by decide)
    have hge : (0 : Int) ≤ (digitsToNat (c :: rest) : Int) := Int.natCast_nonneg _
    simp only [atoiChars, if_neg hcp, if_neg hcm]
    rw [if_pos (⟨List.cons_ne_nil c rest, h2⟩ :
      c :: rest ≠ [] ∧ (c :: rest).all Char.isDigit = true)]
    simp only [Bool.false_eq_true, if_false]
    rw [if_neg (by omega), if_neg (by omega)]

/-- Spec-side predicate: the branch name matches pr-(digits)
case-insensitively (the words of the spec for C7). -/
def specMatchesPrDigits (branch : String) : Bool :=
  match branch.toList.map Char.toLower with
  | 'p' :: 'r' :: '-' :: ds => !ds.isEmpty && ds.all Char.isDigit
  | _ => false

/-- C7 (amended): a derived branch name whose lowering is pr- followed
by digits with value in the 64-bit signed range yields that value with
no error; a branch whose lowering does not start with pr- yields zero
with no error; a branch whose lowering starts with pr- but whose
remainder fails Atoi yields an error (the source surfaces the Atoi error
rather than returning zero silently). -/
theorem C7_pr_number_extraction :
    (∀ (a : ActivityRecord) (ds : List Char),
      (createPipelineDetails a).BranchName.toList.map Char.toLower =
        'p' :: 'r' :: '-' :: ds →
      ds ≠ [] → ds.all Char.isDigit = true → (digitsToNat ds : Int) ≤ 2 ^ 63 - 1 →
      getPullRequestNumber a = ((digitsToNat ds : Int), true)) ∧
    (∀ (a : ActivityRecord),
      ((createPipelineDetails a).BranchName.toList.map Char.toLower).take 3 ≠
        ['p', 'r', '-'] →
      getPullRequestNumber a = (0, true)) ∧
    (∀ (a : ActivityRecord) (rest : List Char),
      (createPipelineDetails a).BranchName.toList.map Char.toLower =
        'p' :: 'r' :: '-' :: rest →
      (atoiChars rest).2 = false → (getPullRequestNumber a).2 = false) := by
  refine ⟨?_, ?_, ?_⟩
  · intro a ds hmap hne hdig hrange
    simp only [getPullRequestNumber, hmap, List.take, List.drop, if_true]
    exact atoiChars_digits ds hne hdig hrange
  · intro a h
    simp only [getPullRequestNumber]
    rw [if_neg h]
  · intro a rest hmap hbad
    simp only [getPullRequestNumber, hmap, List.take, List.drop, if_true]
    exact hbad

/-- Activity fixture whose branch has the pr- shape with a non-numeric
remainder. -/
def actC7 : ActivityRecord :=
  ⟨"act7", "own", "rep", "pr-foo", "5", "", .running, none, none, "", "", "", []⟩

/-- Counterexample to C7 as stated: the branch pr-foo does not match
pr-(digits), yet getPullRequestNumber returns an error instead of zero
with no error. -/
theorem C7_counterexample :
    specMatchesPrDigits "pr-foo" = false ∧ actC7.Branch = "pr-foo" ∧
    getPullRequestNumber actC7 ≠ (0, true) ∧ (getPullRequestNumber actC7).2 = false := by
  refine ⟨by decide, rfl, by decide, by decide⟩

/-- Activity fixtures for the C7 witness: an upper-case pull-request
branch and a master branch. -/
def actW7 : ActivityRecord :=
  ⟨"actW7", "own", "rep", "PR-42", "5", "", .running, none, none, "", "", "", []⟩

/-- Master-branch fixture for the C7 witness. -/
def actM7 : ActivityRecord :=
  ⟨"actM7", "own", "rep", "master", "5", "", .running, none, none, "", "", "", []⟩

/-- Witness for C7 at branches PR-42 and master. -/
theorem C7_pr_number_extraction_witness :
    ((createPipelineDetails actW7).BranchName.toList.map Char.toLower =
      'p' :: 'r' :: '-' :: ['4', '2'] ∧
     (digitsToNat ['4', '2'] : Int) ≤ 2 ^ 63 - 1) ∧
    getPullRequestNumber actW7 = (42, true) ∧
    (((createPipelineDetails actM7).BranchName.toList.map Char.toLower).take 3 ≠
      ['p', 'r', '-'] ∧
     getPullRequestNumber actM7 = (0, true)) :=
  ⟨⟨by decide, by decide⟩,
   C7_pr_number_extraction.1 actW7 ['4', '2'] (by decide) (by decide) (by decide) (by decide),
   ⟨by decide, C7_pr_number_extraction.2.1 actM7 (by decide)⟩⟩

/-- Spec-side latest time of an activity alone: the maximum of the start
and completion times, starting from minus one. -/
def specLatestOf (a : ActivityRecord) : Int :=
  max (max (-1) (a.StartTime.getD (-1))) (a.CompletionTime.getD (-1))

/-- getLastUpdatedTime with no pull request is the latest of the
activity start and completion times. -/
lemma getLastUpdatedTime_none_eq (a : ActivityRecord) :
    getLastUpdatedTime none (some a) = specLatestOf a := by
  rcases hs : a.StartTime with _ | s <;> rcases hc : a.CompletionTime with _ | c <;>
    simp only [getLastUpdatedTime, specLatestOf, hs, hc, Option.getD_some, Option.getD_none,
      max_def] <;>
    split_ifs <;> omega

/-- The pipeline attachment list starts with the main attachment, whose
timestamp is the activity-only last updated time when positive and whose
color is the attachment color of the derived pipeline status. -/
lemma buildPipelineAttachments_head (o : Statuses) (friendly : String → String)
    (a : ActivityRecord) (now : Int) (mt : String) :
    ∃ att rest, (buildPipelineAttachments o friendly a now mt).1 = att :: rest ∧
      att.Ts = (if 0 < getLastUpdatedTime none (some a) then
        some (getLastUpdatedTime none (some a)) else none) ∧
      att.Color = attachmentColor (pipelineStatus a) :=
  ⟨_, _, rfl, rfl, rfl⟩

/-- The createIfMissing flag of the pipeline message is true exactly
when the activity-only last updated time is within the last day. -/
lemma buildPipelineAttachments_snd (o : Statuses) (friendly : String → String)
    (a : ActivityRecord) (now : Int) (mt : String) :
    ((buildPipelineAttachments o friendly a now mt).2 = true ↔
      now - 24 * 60 * 60 ≤ getLastUpdatedTime none (some a)) := by
  show (if getLastUpdatedTime none (some a) < now - 24 * 60 * 60 then false else true) =
      true ↔ _
  split_ifs with h <;> simp <;> omega

/-- C8 (amended): the pipeline message timestamp equals the latest of
the activity start and completion times — the pull request update time
is not consulted, the source passes nil for the pull request — and the
message is not creatable exactly when that time lies more than 24 hours
before now. -/
theorem C8_pipeline_message_timestamp :
    ∀ (o : Statuses) (friendly : String → String) (a : ActivityRecord)
      (pr : Option GitPullRequest) (now : Int) (atts : List Attachment) (cim : Bool),
      createPipelineMessage o friendly a pr now = some (.ok (atts, cim)) →
      (∃ att rest, atts = att :: rest ∧
        att.Ts = (if 0 < specLatestOf a then some (specLatestOf a) else none)) ∧
      (cim = true ↔ now - 24 * 60 * 60 ≤ specLatestOf a) := by
  intro o friendly a pr now atts cim h
  unfold createPipelineMessage at h
  cases hmt : pipelineMessageText a pr with
  | none => rw [hmt] at h; exact absurd h (by simp)
  | some r =>
    cases r with
    | error e => rw [hmt] at h; simp at h
    | ok mt =>
      rw [hmt] at h
      simp only [Option.some.injEq, Except.ok.injEq] at h
      have h1 : atts = (buildPipelineAttachments o friendly a now mt).1 := by rw [h]
      have h2 : cim = (buildPipelineAttachments o friendly a now mt).2 := by rw [h]
      subst h1
      subst h2
      obtain ⟨att, rest, hcons, hts, _⟩ := buildPipelineAttachments_head o friendly a now mt
      refine ⟨⟨att, rest, hcons, ?_⟩, ?_⟩
      · rw [hts, getLastUpdatedTime_none_eq]
      · rw [buildPipelineAttachments_snd, getLastUpdatedTime_none_eq]

/-- First attachment timestamp of a pipeline-message result. -/
def firstTsOf (r : Option (Except String (List Attachment × Bool))) : Option (Option Int) :=
  match r with
  | some (.ok (att :: _, _)) => some att.Ts
  | _ => none

/-- Activity fixture for the C8 counterexample: started at epoch second
five, never completed. -/
def actC8 : ActivityRecord :=
  ⟨"act8", "own", "rep", "master", "3", "", .running, some 5, none, "", "", "", []⟩

/-- Pull request fixture updated at epoch second one million. -/
def prC8 : GitPullRequest :=
  ⟨"T8", "http://e/o/r/pull/7", "bob", [], some false, false, some 1000000⟩

/-- Counterexample to C8 as stated: the pipeline message timestamp is
the activity time five, not the latest of the pull-request update time
and the activity times, which is one million. -/
theorem C8_counterexample :
    firstTsOf (createPipelineMessage {} id actC8 (some prC8) 10) = some (some 5) ∧
    getLastUpdatedTime (some prC8) (some actC8) = 1000000 ∧ (5 : Int) ≠ 1000000 := by
  refine ⟨by decide, by decide, by decide⟩

/-- Activity fixture for the C8 witness. -/
def actW8 : ActivityRecord :=
  ⟨"actW8", "o", "r", "master", "1", "", .success, some 100, some 200, "", "", "", []⟩

/-- Result of the pipeline message on the C8 witness fixture. -/
def resW8 : Option (Except String (List Attachment × Bool)) :=
  createPipelineMessage {} id actW8 none 10

/-- Attachments of the C8 witness result. -/
def attsW8 : List Attachment :=
  match resW8 with
  | some (.ok (l, _)) => l
  | _ => []

/-- Creation flag of the C8 witness result. -/
def cimW8 : Bool :=
  match resW8 with
  | some (.ok (_, b)) => b
  | _ => false

/-- Witness for C8 at a concrete recent activity. -/
theorem C8_pipeline_message_timestamp_witness :
    createPipelineMessage {} id actW8 none 10 = some (.ok (attsW8, cimW8)) ∧
    (∃ att rest, attsW8 = att :: rest ∧
      att.Ts = (if 0 < specLatestOf actW8 then some (specLatestOf actW8) else none)) ∧
    (cimW8 = true ↔ 10 - 24 * 60 * 60 ≤ specLatestOf actW8) := by
  have h : createPipelineMessage {} id actW8 none 10 = some (.ok (attsW8, cimW8)) := rfl
  exact ⟨h, C8_pipeline_message_timestamp {} id actW8 none 10 attsW8 cimW8 h⟩

/-- The derived pipeline status falls back to the last stage status. -/
lemma foldl_stage_status : ∀ (l : List Stage) (st : PipelineState),
    l.foldl (fun _ stage => stage.Status) st =
      (match l.getLast? with | some s => s.Status | none => st)
  | [], _ => rfl
  | [_], _ => rfl
  | a :: b :: t, st => by
    obtain ⟨m, hm⟩ := getLast?_isSome_of_ne_nil (b :: t) (by simp)
    rw [List.foldl_cons, foldl_stage_status (b :: t) a.Status, List.getLast?_cons_cons, hm]

/-- C9 (amended): the first attachment of the pipeline message carries
the color of the derived pipeline status — which is the activity status
for a succeeded activity or when there are no stages, and the last stage
status otherwise — with failure mapping to danger, success to good,
running and pending to the info blue, and every other state to the
neutral empty color. -/
theorem C9_attachment_color_keying :
    (∀ (o : Statuses) (friendly : String → String) (a : ActivityRecord)
        (pr : Option GitPullRequest) (now : Int) (atts : List Attachment) (cim : Bool),
      createPipelineMessage o friendly a pr now = some (.ok (atts, cim)) →
      ∃ att rest, atts = att :: rest ∧ att.Color = attachmentColor (pipelineStatus a)) ∧
    (attachmentColor .failure = "danger" ∧ attachmentColor .success = "good" ∧
      attachmentColor .running = "#3AA3E3" ∧ attachmentColor .pending = "#3AA3E3" ∧
      attachmentColor .aborted = "" ∧ attachmentColor .triggered = "" ∧
      attachmentColor .errored = "" ∧ attachmentColor .noneState = "") ∧
    (∀ (a : ActivityRecord) (s : Stage), a.Status ≠ .success → a.Stages.getLast? = some s →
      pipelineStatus a = s.Status) ∧
    (∀ a : ActivityRecord, a.Stages = [] → pipelineStatus a = a.Status) := by
  refine ⟨?_, by decide, ?_, ?_⟩
  · intro o friendly a pr now atts cim h
    unfold createPipelineMessage at h
    cases hmt : pipelineMessageText a pr with
    | none => rw [hmt] at h; exact absurd h (by simp)
    | some r =>
      cases r with
      | error e => rw [hmt] at h; simp at h
      | ok mt =>
        rw [hmt] at h
        simp only [Option.some.injEq, Except.ok.injEq] at h
        have h1 : atts = (buildPipelineAttachments o friendly a now mt).1 := by rw [h]
        subst h1
        obtain ⟨att, rest, hcons, _, hcol⟩ := buildPipelineAttachments_head o friendly a now mt
        exact ⟨att, rest, hcons, hcol⟩
  · intro a s hne hlast
    have hdef : pipelineStatus a =
        (match a.Status with
          | .success => PipelineState.success
          | st => a.Stages.foldl (fun _ stage => stage.Status) st) := rfl
    cases ha : a.Status <;> rw [hdef, ha] <;>
      first
      | exact absurd ha hne
      | (show a.Stages.foldl (fun _ stage => stage.Status) _ = s.Status
         rw [foldl_stage_status, hlast])
  · intro a hnil
    have hdef : pipelineStatus a =
        (match a.Status with
          | .success => PipelineState.success
          | st => a.Stages.foldl (fun _ stage => stage.Status) st) := rfl
    cases ha : a.Status <;> rw [hdef, ha] <;> simp [hnil]

/-- First attachment color of a pipeline-message result. -/
def firstColorOf (r : Option (Except String (List Attachment × Bool))) : Option String :=
  match r with
  | some (.ok (att :: _, _)) => some att.Color
  | _ => none

/-- Activity fixture for the C9 counterexample: a failed activity whose
single stage succeeded. -/
def actC9 : ActivityRecord :=
  ⟨"act9", "o", "r", "master", "2", "", .failure, some 5, none, "", "", "",
    [⟨"Promote", .success, []⟩]⟩

/-- Counterexample to C9 as stated: a failed activity whose message
color is good, not danger, because the derived pipeline status takes the
last stage status. -/
theorem C9_counterexample :
    actC9.Status = .failure ∧
    firstColorOf (createPipelineMessage {} id actC9 none 10) = some "good" ∧
    attachmentColor .failure = "danger" := by
  refine ⟨rfl, by decide, rfl⟩

/-- Activity fixture for the C9 witness: failed with no stages. -/
def actW9 : ActivityRecord :=
  ⟨"actW9", "o", "r", "master", "2", "", .failure, some 5, none, "", "", "", []⟩

/-- Result attachments of the pipeline message on the C9 witness. -/
def attsW9 : List Attachment :=
  match createPipelineMessage {} id actW9 none 10 with
  | some (.ok (l, _)) => l
  | _ => []

/-- Creation flag of the pipeline message on the C9 witness. -/
def cimW9 : Bool :=
  match createPipelineMessage {} id actW9 none 10 with
  | some (.ok (_, b)) => b
  | _ => false

/-- Witness for C9 at a failed stage-less activity: the first attachment
color is danger. -/
theorem C9_attachment_color_keying_witness :
    createPipelineMessage {} id actW9 none 10 = some (.ok (attsW9, cimW9)) ∧
    (∃ att rest, attsW9 = att :: rest ∧
      att.Color = attachmentColor (pipelineStatus actW9)) ∧
    attachmentColor (pipelineStatus actW9) = "danger" := by
  have h : createPipelineMessage {} id actW9 none 10 = some (.ok (attsW9, cimW9)) := rfl
  exact ⟨h, C9_attachment_color_keying.1 {} id actW9 none 10 attsW9 cimW9 h, by decide⟩

/-- Fetch function fixture that is never consulted. -/
def fetchNone : Int → Except String GitPullRequest := fun _ => .error "provider not used"

/-- Non-pull-request activity fixture for C10. -/
def actC10 : ActivityRecord :=
  ⟨"a10", "o", "r", "master", "1", "", .running, none, none, "", "", "", []⟩

/-- C10: on a non-pull-request activity getPullRequest returns no pull
request and no error, and isEnabled with a non-empty ignore-label list
then reaches the nil-pointer dereference of pr.Labels, modelled as the
none outcome: the eligibility gate faults instead of returning a defined
result. -/
theorem C10_isEnabled_nil_deref :
    getPullRequest fetchNone actC10 = .ok (none, false) ∧
    isEnabled fetchNone actC10 [] ["wip"] = none ∧
    isEnabled fetchNone actC10 [] [] = some (.ok (true, none, false)) := by
  refine ⟨rfl, rfl, rfl⟩

end Slackbot
